import Mathlib

/-!
Verification development for the DKB scraper (`dkbscraper.py`).

The Python module drives a stateful scraping session against an online
banking portal.  We give a shallow embedding of its operations:

* `login` / `logout` over an abstract page model (forms, response markers,
  navigation anchors);
* `postbox_items` over an abstract row model of the postbox listing table;
* `derive_filename`, the filename derivation `url.split('/')[-1].split('?')[0]
  + '.pdf'`, modelled over `List Char` with `pySplit` mirroring Python's
  single-separator `str.split`;
* `download_document` with the filesystem as an association list and an
  oracle `copy_fails` marking destinations whose copy raises;
* `get_all_banking_account_transactions` producing an explicit event trace
  (HTTP requests, file writes, `time.sleep(5)` pauses) so that pacing and
  atomicity properties can be stated.

Network responses are oracles passed in as parameters; everything else is
translated line by line from the source.
-/

/-- Base URL constant of the session class (`base_url`). -/
def base_url : String := "https://www.dkb.de"

/-- An HTML form as the scraper sees it: its action URL and the names of its
fields (`f.action`, `f.fields.keys()`). -/
structure Form where
  action : String
  fieldNames : List String
deriving DecidableEq

/-- The form-location loop: scan the page's forms in document order and return
the first one whose field set contains the required field name (the
`for ... if name in f.fields.keys(): break / else: raise` pattern used by both
`login` and `get_all_banking_account_transactions`). -/
def findForm (forms : List Form) (field : String) : Option Form :=
  match forms with
  | [] => none
  | f :: rest => if field ∈ f.fieldNames then some f else findForm rest field

/-- Whether the first character list is a prefix of the second. -/
def chars_start : List Char → List Char → Bool
  | [], _ => true
  | _ :: _, [] => false
  | a :: as, b :: bs => a = b && chars_start as bs

/-- Whether the first character list occurs contiguously in the second. -/
def chars_occur (needle : List Char) : List Char → Bool
  | [] => chars_start needle []
  | c :: t => chars_start needle (c :: t) || chars_occur needle t

/-- Python's substring test `needle in s`. -/
def pyIn (needle s : String) : Bool :=
  chars_occur needle.data s.data

/-- A calendar date (`datetime.date`). -/
structure Date where
  year : Nat
  month : Nat
  day : Nat
deriving DecidableEq

/-- Strict ordering on dates (year, then month, then day). -/
def dateLt (a b : Date) : Bool :=
  if a.year < b.year then true
  else if b.year < a.year then false
  else if a.month < b.month then true
  else if b.month < a.month then false
  else decide (a.day < b.day)

/-- Zero-padded two-digit rendering used by `%d` and `%m`. -/
def pad2 (n : Nat) : String :=
  if n < 10 then "0" ++ toString n else toString n

/-- Zero-padded four-digit rendering used by `%Y`. -/
def pad4 (n : Nat) : String :=
  if n < 10 then "000" ++ toString n
  else if n < 100 then "00" ++ toString n
  else if n < 1000 then "0" ++ toString n
  else toString n

/-- `date.strftime("%d.%m.%Y")`. -/
def formatDate (d : Date) : String :=
  pad2 d.day ++ "." ++ pad2 d.month ++ "." ++ pad4 d.year

/-- Observable effects of a run: HTTP requests, file writes and the fixed
rate-limit pause `time.sleep(5)`. -/
inductive Event where
  | httpGet (url : String)
  | httpPost (url : String)
  | fileWrite (name : String) (content : String)
  | sleep (seconds : Nat)
deriving DecidableEq

/-- Number of pause events in a trace. -/
def countSleeps : List Event → Nat
  | [] => 0
  | Event.sleep _ :: r => countSleeps r + 1
  | _ :: r => countSleeps r

/-- Failures of the export flow: the account-selection form is missing from
the transactions page, or the `csvExport` anchor is missing from the response
for one account (in the source, `soup.find('a', tid='csvExport')['href']`
raising on `None`). -/
inductive ExportError where
  | selectionFormNotFound
  | exportLinkMissing (key : String)
deriving DecidableEq

/-- Oracles for the server's responses during an export run: the forms of the
transactions page, and per account key the optional `csvExport` href and the
CSV text the export URL returns. -/
structure ExportEnv where
  selectionForms : List Form
  csvLink : String → Option String
  csvText : String → String

/-- Result of an export run: the event trace, the files written (name and
content, in write order) and the terminal outcome (`none` = completed). -/
structure ExportRun where
  trace : List Event
  files : List (String × String)
  result : Option ExportError

/-- The CSV artifact one account produces:
`destination + "ac%s_%s_to_%s.csv" % (o, start_date_str, end_date_str)`
paired with the response text written into it. -/
def export_file_entry (env : ExportEnv) (sds eds dst : String)
    (p : String × String) : String × String :=
  (dst ++ "ac" ++ p.1 ++ "_" ++ sds ++ "_to_" ++ eds ++ ".csv", env.csvText p.1)

/-- The per-account loop of `get_all_banking_account_transactions`.  For each
`(key, displayName)`: if the display name contains `'PayPal'` the body is
skipped; otherwise the selection form is posted, the `csvExport` link looked
up (missing link aborts the whole run), the CSV fetched and written.  The
`time.sleep(5)` sits at loop level, after the conditional body. -/
def exportLoop (form : Form) (env : ExportEnv) (sds eds dst : String) :
    List (String × String) → ExportRun
  | [] => ⟨[], [], none⟩
  | (o, name) :: rest =>
    if pyIn "PayPal" name then
      let r := exportLoop form env sds eds dst rest
      ⟨Event.sleep 5 :: r.trace, r.files, r.result⟩
    else
      match env.csvLink o with
      | none =>
        ⟨[Event.httpPost (base_url ++ form.action)], [],
          some (ExportError.exportLinkMissing o)⟩
      | some csvUrl =>
        let entry := export_file_entry env sds eds dst (o, name)
        let r := exportLoop form env sds eds dst rest
        ⟨Event.httpPost (base_url ++ form.action)
            :: Event.httpGet (base_url ++ csvUrl)
            :: Event.fileWrite entry.1 entry.2
            :: Event.sleep 5 :: r.trace,
          entry :: r.files, r.result⟩

/-- `get_all_banking_account_transactions(start_date, end_date, destination)`:
format the two dates with `%d.%m.%Y`, GET the transactions page, locate the
form holding the `slAllAccounts` field, then run the per-account loop over the
discovered accounts.  Note the source performs no comparison of the two
dates. -/
def get_all_banking_account_transactions (umsatz_url : String)
    (accounts : List (String × String)) (env : ExportEnv)
    (start_date end_date : Date) (destination : String) : ExportRun :=
  let sds := formatDate start_date
  let eds := formatDate end_date
  match findForm env.selectionForms "slAllAccounts" with
  | none =>
    ⟨[Event.httpGet (base_url ++ umsatz_url)], [],
      some ExportError.selectionFormNotFound⟩
  | some form =>
    let r := exportLoop form env sds eds destination accounts
    ⟨Event.httpGet (base_url ++ umsatz_url) :: r.trace, r.files, r.result⟩

/-- Errors of the `login` method: `RuntimeError('Login Form not found.')`,
`RuntimeError('Login to DKB Online Banking failed.')`, and the post-login
navigation anchors being absent (`soup.find(...)` returning `None`). -/
inductive LoginError where
  | loginFormNotFound
  | authenticationFailed
  | navigationLinkMissing
deriving DecidableEq

/-- The three navigation URLs `login` stores on success
(`logout_url`, `postbox_url`, `umsatz_url`). -/
structure NavUrls where
  logoutUrl : String
  postboxUrl : String
  umsatzUrl : String
deriving DecidableEq

/-- The parsed response to the login POST, as `login` inspects it:
whether a text node `'Finanzstatus'` is present, and the hrefs of the anchors
found via `id='logout'`, `tid='Postfach'` and `tid='Umsaetze'`. -/
structure LoginResponse where
  hasFinanzstatus : Bool
  logoutHref : Option String
  postfachHref : Option String
  umsaetzeHref : Option String
deriving DecidableEq

/-- Outcome of `login`. -/
inductive LoginResult where
  | ok (urls : NavUrls)
  | err (e : LoginError)
deriving DecidableEq

/-- The `login` method over the page model: locate the form containing the
`j_username` field (raise if none does), POST it, require the text
`'Finanzstatus'` in the response (raise otherwise), then extract the three
navigation hrefs (raise if any anchor is missing).  The POST response is an
oracle `resp` since it is produced by the server. -/
def login (forms : List Form) (resp : LoginResponse) : LoginResult :=
  match findForm forms "j_username" with
  | none => LoginResult.err LoginError.loginFormNotFound
  | some _ =>
    if resp.hasFinanzstatus then
      match resp.logoutHref, resp.postfachHref, resp.umsaetzeHref with
      | some l, some p, some u => LoginResult.ok ⟨l, p, u⟩
      | _, _, _ => LoginResult.err LoginError.navigationLinkMissing
    else LoginResult.err LoginError.authenticationFailed

/-- Session state after login: the stored navigation URLs and whether the
HTTP client has been closed. -/
structure Session where
  logoutUrl : Option String
  postboxUrl : Option String
  umsatzUrl : Option String
  closed : Bool
deriving DecidableEq

/-- The `logout` method: GET the stored logout URL, compute the return value
as `status_code == 200`, then close the HTTP client.  Nothing else on the
session is modified — in particular the stored URLs are left in place. -/
def logout (status : Nat) (s : Session) : List Event × Bool × Session :=
  ([Event.httpGet (base_url ++ s.logoutUrl.getD "")],
    status == 200,
    { s with closed := true })

/-- Python's `s.split(sep)` for a single-character separator, over the
character list of the string: no collapsing of adjacent separators, and the
result is never empty (`''.split(c) == ['']`). -/
def pySplit (sep : Char) : List Char → List (List Char)
  | [] => [[]]
  | c :: cs =>
    if c = sep then [] :: pySplit sep cs
    else
      match pySplit sep cs with
      | [] => [[c]]
      | t :: ts => (c :: t) :: ts

/-- Python's `l[0]` on a split result (split results are never empty, so the
default is unreachable). -/
def head_elem : List (List Char) → List Char
  | [] => []
  | t :: _ => t

/-- Python's `l[-1]` on a split result (split results are never empty, so the
default is unreachable). -/
def last_elem : List (List Char) → List Char
  | [] => []
  | [t] => t
  | _ :: t :: ts => last_elem (t :: ts)

/-- The filename derivation of `postbox_items`:
`url.split('/')[-1].split('?')[0] + '.pdf'`. -/
def derive_filename (url : String) : String :=
  String.mk (head_elem (pySplit '?' (last_elem (pySplit '/' url.data)))
    ++ ".pdf".data)

/-- Modelled from the spec's wording for the filename rule: the prefix of a
string up to (excluding) the first occurrence of a stop character — used to
express "with any query string stripped". -/
def take_until (stop : Char) : List Char → List Char
  | [] => []
  | c :: cs => if c = stop then [] else c :: take_until stop cs

/-- Modelled from the spec's wording: the last path segment of a URL, i.e.
the maximal suffix containing no `'/'`. -/
def last_path_segment (s : String) : String :=
  String.mk (take_until '/' s.data.reverse).reverse

/-- Modelled from the spec's wording: the string with any query string
stripped (everything from the first `'?'` on removed). -/
def strip_query (s : String) : String :=
  String.mk (take_until '?' s.data)

/-- The spec's filename rule: last path segment, query string stripped,
suffixed with `'.pdf'`. -/
def spec_filename (url : String) : String :=
  strip_query (last_path_segment url) ++ ".pdf"

/-- The title cell of a postbox row (`row.findChild(id='title')`): whether it
contains a `strong` child, and the text of its `a` child when present. -/
structure TitleCell where
  hasStrong : Bool
  linkText : Option String
deriving DecidableEq

/-- One row of the postbox documents table, as `postbox_items` queries it:
the optional title cell and the optional href enclosing the save link
(`row.find(title='Speichern').find_parent().get('href')`). -/
structure PostboxRow where
  titleCell : Option TitleCell
  saveHref : Option String
deriving DecidableEq

/-- The `PostboxDocument` namedtuple. -/
structure PostboxDocument where
  title : String
  is_read : Bool
  url : String
  filename : String
deriving DecidableEq

/-- Extraction of one row, mirroring the loop body of `postbox_items`:
`is_read` is the absence of a `strong` element in the title cell, `title` the
text of the title cell's link, `url` the save link's href, `filename` derived
from the url.  A missing element raises in the source, hence `none` here. -/
def parse_row (row : PostboxRow) : Option PostboxDocument :=
  match row.titleCell with
  | none => none
  | some tc =>
    match tc.linkText, row.saveHref with
    | some t, some u => some ⟨t, !tc.hasStrong, u, derive_filename u⟩
    | _, _ => none

/-- The `postbox_items` generator over the rows of the documents table: yield
one record per row in row order; a malformed row aborts the iteration. -/
def postbox_items : List PostboxRow → Option (List PostboxDocument)
  | [] => some []
  | r :: rs =>
    match parse_row r, postbox_items rs with
    | some d, some ds => some (d :: ds)
    | _, _ => none

/-- Total row extractor agreeing with `parse_row` on well-formed rows. -/
def row_doc (row : PostboxRow) : PostboxDocument :=
  let tc := row.titleCell.getD ⟨false, none⟩
  let u := row.saveHref.getD ""
  ⟨(tc.linkText.getD ""), !tc.hasStrong, u, derive_filename u⟩

/-- A well-formed row: title cell present with a link carrying non-empty
text, and a save link present. -/
def wf_row (row : PostboxRow) : Bool :=
  match row.titleCell with
  | none => false
  | some tc =>
    (match tc.linkText with
     | some t => decide (t ≠ "")
     | none => false) && row.saveHref.isSome

/-- Lookup in the association-list filesystem (path to byte content). -/
def fsLookup : List (String × String) → String → Option String
  | [], _ => none
  | (p, b) :: r, q => if p = q then some b else fsLookup r q

/-- Terminal outcome of `download_document`: completed, non-200 status
(`RuntimeError('Download failed.')`), or an exception while copying to one
destination. -/
inductive DownloadResult where
  | ok
  | downloadFailed
  | copyError (dest : String)
deriving DecidableEq

/-- Result of a `download_document` run: the destination filesystem, the
temporary files still on disk when the call exits, and the outcome. -/
structure DLOutcome where
  files : List (String × String)
  tempFiles : List String
  result : DownloadResult
deriving DecidableEq

/-- Name of the scoped temporary file (`tempfile.NamedTemporaryFile`). -/
def tmp_name : String := "/tmp/dkbtmp"

/-- The fan-out loop of `download_document`: for each destination in order,
if a file exists there report and skip it (`continue`); otherwise copy the
temporary file's bytes (`shutil.copyfile`) — a failing copy raises, aborting
the loop.  Returns the updated filesystem and the destination whose copy
raised, if any. -/
def copyLoop (content : String) (copy_fails : String → Bool) :
    List String → List (String × String) → List (String × String) × Option String
  | [], fs => (fs, none)
  | d :: ds, fs =>
    if (fsLookup fs d).isSome then copyLoop content copy_fails ds fs
    else if copy_fails d then (fs, some d)
    else copyLoop content copy_fails ds ((d, content) :: fs)

/-- The `download_document` method: fail when the HTTP status is not 200
(before the temporary file exists); otherwise write the stream to one
temporary file, run the fan-out loop, and `os.unlink` the temporary file —
a line only reached when the loop completed without raising. -/
def download_document (status : Nat) (content : String)
    (copy_fails : String → Bool) (destinations : List String)
    (fs : List (String × String)) : DLOutcome :=
  if status ≠ 200 then ⟨fs, [], DownloadResult.downloadFailed⟩
  else
    match copyLoop content copy_fails destinations fs with
    | (fs2, none) => ⟨fs2, [], DownloadResult.ok⟩
    | (fs2, some d) => ⟨fs2, [tmp_name], DownloadResult.copyError d⟩

/-! Concrete fixtures used by the witnesses and counterexamples below. -/

/-- Three linked accounts, the middle one a PayPal account. -/
def exAccounts : List (String × String) :=
  [("1", "Girokonto"), ("2", "PayPal Konto"), ("3", "Depot")]

/-- An export environment where the selection form is present and every
account's response carries a `csvExport` link. -/
def exEnv : ExportEnv where
  selectionForms := [⟨"/banking/select", ["slAllAccounts", "searchPeriodRadio"]⟩]
  csvLink := fun k => some ("/csv/" ++ k)
  csvText := fun k => "CSV-" ++ k

/-- An export environment whose response for account key `3` lacks the
`csvExport` link. -/
def exEnvFail : ExportEnv where
  selectionForms := [⟨"/banking/select", ["slAllAccounts", "searchPeriodRadio"]⟩]
  csvLink := fun k => if k = "3" then none else some ("/csv/" ++ k)
  csvText := fun k => "CSV-" ++ k

/-- A date range with start before end. -/
def exStart : Date := ⟨2024, 1, 1⟩

/-- End of the well-ordered range. -/
def exEnd : Date := ⟨2024, 3, 31⟩

/-- A start date strictly after `exEndRev`. -/
def exStartRev : Date := ⟨2024, 5, 10⟩

/-- An end date strictly before `exStartRev`. -/
def exEndRev : Date := ⟨2024, 1, 1⟩

/-- A login page containing only a search form, no `j_username` field. -/
def exFormsNoUser : List Form := [⟨"/search", ["q"]⟩]

/-- A login page whose second form is the login form. -/
def exFormsUser : List Form :=
  [⟨"/search", ["q"]⟩, ⟨"/banking/login", ["j_username", "j_password"]⟩]

/-- A POST response without the `'Finanzstatus'` marker. -/
def exRespFail : LoginResponse := ⟨false, none, none, none⟩

/-- A POST response with the marker and all three navigation anchors. -/
def exRespOk : LoginResponse :=
  ⟨true, some "/logout", some "/postbox", some "/umsatz"⟩

/-- A logged-in session before logout. -/
def exSession : Session :=
  ⟨some "/logout", some "/postbox", some "/umsatz", false⟩

/-- A copy-failure oracle where only the path `/dst/bad.pdf` is unwritable. -/
def exCopyFailsBad : String → Bool := fun d => d = "/dst/bad.pdf"

/-- A copy-failure oracle where every destination is writable. -/
def noCopyFails : String → Bool := fun _ => false

/-- Two well-formed postbox rows, the first carrying the unread marker. -/
def exRows : List PostboxRow :=
  [⟨some ⟨true, some "Kontoauszug Nr. 1"⟩, some "/docs/a1?x=1"⟩,
   ⟨some ⟨false, some "Mitteilung"⟩, some "/docs/b2"⟩]

/-! Basic lemmas about the form-location loop. -/

theorem findForm_eq_none (forms : List Form) (field : String)
    (h : ∀ f ∈ forms, field ∉ f.fieldNames) : findForm forms field = none := by
  induction forms with
  | nil => rfl
  | cons f rest ih =>
    unfold findForm
    rw [if_neg (h f (List.mem_cons_self f rest))]
    exact ih fun g hg => h g (List.mem_cons_of_mem f hg)

theorem findForm_isSome (forms : List Form) (field : String)
    (h : ∃ f ∈ forms, field ∈ f.fieldNames) : (findForm forms field).isSome = true := by
  induction forms with
  | nil => obtain ⟨f, hf, _⟩ := h; cases hf
  | cons f rest ih =>
    unfold findForm
    by_cases hf : field ∈ f.fieldNames
    · rw [if_pos hf]; rfl
    · rw [if_neg hf]
      obtain ⟨g, hg, hgf⟩ := h
      rcases List.mem_cons.mp hg with hgf' | hg'
      · exact absurd (hgf' ▸ hgf) hf
      · exact ih ⟨g, hg', hgf⟩

/-- C8 counterexample: after a logout whose request fails (HTTP 500) the
stored postbox navigation URL is still present — the navigation URLs are not
cleared by `logout`, contrary to the claim. -/
theorem C8_counterexample :
    (logout 500 exSession).2.2.postboxUrl = some "/postbox"
    ∧ (logout 500 exSession).2.1 = false := by
  decide

/-- C8 (amended): `logout` closes the HTTP client unconditionally — also when
the logout request does not return a success status — and returns true iff
the status is 200; but the stored navigation URLs (logout, postbox,
transactions) are left unchanged, not cleared. -/
theorem C8_logout_amended (status : Nat) (s : Session) :
    (logout status s).2.2.closed = true
    ∧ (logout status s).2.1 = (status == 200)
    ∧ (logout status s).2.2.logoutUrl = s.logoutUrl
    ∧ (logout status s).2.2.postboxUrl = s.postboxUrl
    ∧ (logout status s).2.2.umsatzUrl = s.umsatzUrl :=
  ⟨rfl, rfl, rfl, rfl, rfl⟩

/-- C6: on a page none of whose forms has a `j_username` field, `login` fails
with the login-form-not-found error; with the form present but the response
lacking the `'Finanzstatus'` marker it fails with the authentication error;
with the form present and the marker present, neither of those two errors is
produced. -/
theorem C6_login_errors (forms : List Form) (resp : LoginResponse) :
    ((∀ f ∈ forms, "j_username" ∉ f.fieldNames) →
      login forms resp = LoginResult.err LoginError.loginFormNotFound)
    ∧ ((∃ f ∈ forms, "j_username" ∈ f.fieldNames) → resp.hasFinanzstatus = false →
      login forms resp = LoginResult.err LoginError.authenticationFailed)
    ∧ ((∃ f ∈ forms, "j_username" ∈ f.fieldNames) → resp.hasFinanzstatus = true →
      login forms resp ≠ LoginResult.err LoginError.loginFormNotFound
      ∧ login forms resp ≠ LoginResult.err LoginError.authenticationFailed) := by
  refine ⟨?_, ?_, ?_⟩
  · intro h
    unfold login
    rw [findForm_eq_none forms "j_username" h]
  · intro hex hmark
    obtain ⟨g, hg⟩ := Option.isSome_iff_exists.mp (findForm_isSome forms "j_username" hex)
    unfold login
    rw [hg, hmark]
    simp
  · intro hex hmark
    obtain ⟨g, hg⟩ := Option.isSome_iff_exists.mp (findForm_isSome forms "j_username" hex)
    unfold login
    rw [hg, hmark]
    cases resp.logoutHref <;> cases resp.postfachHref <;> cases resp.umsaetzeHref <;>
      exact ⟨by simp, by simp⟩

/-- C6 witness: the three login branches on concrete fixture pages. -/
theorem C6_login_errors_witness :
    login exFormsNoUser exRespOk = LoginResult.err LoginError.loginFormNotFound
    ∧ login exFormsUser exRespFail = LoginResult.err LoginError.authenticationFailed
    ∧ login exFormsUser exRespOk ≠ LoginResult.err LoginError.loginFormNotFound
    ∧ login exFormsUser exRespOk ≠ LoginResult.err LoginError.authenticationFailed :=
  ⟨(C6_login_errors exFormsNoUser exRespOk).1 (by decide),
   (C6_login_errors exFormsUser exRespFail).2.1 (by decide) (by decide),
   ((C6_login_errors exFormsUser exRespOk).2.2 (by decide) (by decide)).1,
   ((C6_login_errors exFormsUser exRespOk).2.2 (by decide) (by decide)).2⟩

/-! Postbox listing: well-formed rows parse completely and in order. -/

theorem parse_row_wf (row : PostboxRow) (h : wf_row row = true) :
    parse_row row = some (row_doc row) := by
  obtain ⟨tc?, sv?⟩ := row
  cases tc? with
  | none => simp [wf_row] at h
  | some tc =>
    obtain ⟨hs, lt?⟩ := tc
    cases lt? with
    | none => simp [wf_row] at h
    | some t =>
      cases sv? with
      | none => simp [wf_row] at h
      | some u => simp [parse_row, row_doc]

theorem postbox_items_wf (rows : List PostboxRow)
    (h : ∀ r ∈ rows, wf_row r = true) :
    postbox_items rows = some (rows.map row_doc) := by
  induction rows with
  | nil => rfl
  | cons r rs ih =>
    unfold postbox_items
    rw [parse_row_wf r (h r (List.mem_cons_self r rs)),
      ih fun g hg => h g (List.mem_cons_of_mem r hg)]
    simp

theorem derive_filename_has_pdf_suffix (u : String) :
    ∃ stem, derive_filename u = stem ++ ".pdf" :=
  ⟨String.mk (head_elem (pySplit '?' (last_elem (pySplit '/' u.data)))), rfl⟩

/-- C5: on a listing whose rows are all well-formed, `postbox_items` yields
exactly one record per row, in row order (the record list is the row-wise map
of the extraction), each record having a non-empty title, a filename carrying
the `.pdf` suffix, and `is_read` equal to the absence of the `strong` unread
marker in that row's title cell. -/
theorem C5_postbox_items_wellformed (rows : List PostboxRow)
    (h : ∀ r ∈ rows, wf_row r = true) :
    postbox_items rows = some (rows.map row_doc)
    ∧ (rows.map row_doc).length = rows.length
    ∧ ∀ r ∈ rows,
        (row_doc r).title ≠ ""
        ∧ (∃ stem, (row_doc r).filename = stem ++ ".pdf")
        ∧ ∀ tc, r.titleCell = some tc → (row_doc r).is_read = !tc.hasStrong := by
  refine ⟨postbox_items_wf rows h, List.length_map rows row_doc, ?_⟩
  intro r hr
  have hw := h r hr
  obtain ⟨tc?, sv?⟩ := r
  cases tc? with
  | none => simp [wf_row] at hw
  | some tc =>
    obtain ⟨hs, lt?⟩ := tc
    cases lt? with
    | none => simp [wf_row] at hw
    | some t =>
      cases sv? with
      | none => simp [wf_row] at hw
      | some u =>
        simp only [wf_row, Bool.and_eq_true, decide_eq_true_eq] at hw
        refine ⟨by simpa [row_doc] using hw.1, derive_filename_has_pdf_suffix u, ?_⟩
        intro tc' htc'
        cases htc'
        simp [row_doc]

/-- C5 witness: the two concrete fixture rows parse to the expected records. -/
theorem C5_postbox_items_wellformed_witness :
    postbox_items exRows = some (exRows.map row_doc)
    ∧ (exRows.map row_doc).length = exRows.length
    ∧ ∀ r ∈ exRows,
        (row_doc r).title ≠ ""
        ∧ (∃ stem, (row_doc r).filename = stem ++ ".pdf")
        ∧ ∀ tc, r.titleCell = some tc → (row_doc r).is_read = !tc.hasStrong :=
  C5_postbox_items_wellformed exRows (by decide)

/-! Filename derivation: the split-based computation of the source agrees
with the spec's "last path segment, query string stripped" rule. -/

theorem pySplit_ne_nil (sep : Char) (s : List Char) : pySplit sep s ≠ [] := by
  cases s with
  | nil => simp [pySplit]
  | cons c cs =>
    unfold pySplit
    by_cases hc : c = sep
    · simp [hc]
    · rw [if_neg hc]
      cases pySplit sep cs <;> simp

theorem head_elem_pySplit (sep : Char) (s : List Char) :
    head_elem (pySplit sep s) = take_until sep s := by
  induction s with
  | nil => rfl
  | cons c cs ih =>
    unfold pySplit take_until
    by_cases hc : c = sep
    · simp [hc, head_elem]
    · rw [if_neg hc, if_neg hc]
      cases hps : pySplit sep cs with
      | nil => exact absurd hps (pySplit_ne_nil sep cs)
      | cons t ts =>
        rw [hps] at ih
        simpa [head_elem] using congrArg (c :: ·) ih

theorem pySplit_eq_singleton (sep : Char) (s : List Char) :
    ∀ t, pySplit sep s = [t] → t = s ∧ ∀ x ∈ s, x ≠ sep := by
  induction s with
  | nil =>
    intro t h
    simp only [pySplit] at h
    obtain rfl : ([] : List Char) = t := (List.cons.injEq _ _ _ _).mp h |>.1
    exact ⟨rfl, by simp⟩
  | cons c cs ih =>
    intro t h
    unfold pySplit at h
    by_cases hc : c = sep
    · rw [if_pos hc] at h
      obtain ⟨-, h2⟩ := (List.cons.injEq _ _ _ _).mp h
      exact absurd h2 (pySplit_ne_nil sep cs)
    · rw [if_neg hc] at h
      cases hps : pySplit sep cs with
      | nil => exact absurd hps (pySplit_ne_nil sep cs)
      | cons u us =>
        rw [hps] at h
        obtain ⟨h1, h2⟩ := (List.cons.injEq _ _ _ _).mp h
        subst h2
        obtain ⟨hu, hnm⟩ := ih u hps
        subst hu
        refine ⟨h1.symm, ?_⟩
        intro x hx
        rcases List.mem_cons.mp hx with rfl | hx'
        · exact hc
        · exact hnm x hx'

theorem pySplit_mem_of_two_le (sep : Char) (s : List Char)
    (h : 2 ≤ (pySplit sep s).length) : sep ∈ s := by
  induction s with
  | nil => simp [pySplit] at h
  | cons c cs ih =>
    by_cases hc : c = sep
    · rw [hc]; exact List.mem_cons_self sep cs
    · unfold pySplit at h
      rw [if_neg hc] at h
      cases hps : pySplit sep cs with
      | nil => exact absurd hps (pySplit_ne_nil sep cs)
      | cons u us =>
        rw [hps] at h
        simp only [List.length_cons] at h
        have h2 : 2 ≤ (pySplit sep cs).length := by
          rw [hps]; simp only [List.length_cons]; omega
        exact List.mem_cons_of_mem c (ih h2)

theorem take_until_append_sep (sep : Char) (l : List Char) :
    take_until sep (l ++ [sep]) = take_until sep l := by
  induction l with
  | nil => simp [take_until]
  | cons c cs ih =>
    by_cases hc : c = sep <;> simp [take_until, hc, ih]

theorem take_until_append_of_mem (sep : Char) (l l2 : List Char) (h : sep ∈ l) :
    take_until sep (l ++ l2) = take_until sep l := by
  induction l with
  | nil => cases h
  | cons c cs ih =>
    by_cases hc : c = sep
    · simp [take_until, hc]
    · have h' : sep ∈ cs := by
        rcases List.mem_cons.mp h with he | h' 
        · exact absurd he.symm hc
        · exact h'
      simp [take_until, hc, ih h']

theorem take_until_append_of_not_mem (sep : Char) (l l2 : List Char)
    (h : sep ∉ l) : take_until sep (l ++ l2) = l ++ take_until sep l2 := by
  induction l with
  | nil => simp
  | cons c cs ih =>
    have hc : ¬ c = sep := fun e => h (e ▸ List.mem_cons_self c cs)
    have h' : sep ∉ cs := fun m => h (List.mem_cons_of_mem c m)
    simp [take_until, hc, ih h']

theorem last_elem_pySplit (sep : Char) (s : List Char) :
    last_elem (pySplit sep s) = (take_until sep s.reverse).reverse := by
  induction s with
  | nil => rfl
  | cons c cs ih =>
    have hrev : (c :: cs).reverse = cs.reverse ++ [c] := by simp
    by_cases hc : c = sep
    · rw [show pySplit sep (c :: cs) = [] :: pySplit sep cs by simp [pySplit, hc]]
      cases hps : pySplit sep cs with
      | nil => exact absurd hps (pySplit_ne_nil sep cs)
      | cons u us =>
        have l1 : last_elem ([] :: u :: us) = last_elem (u :: us) := rfl
        rw [l1, ← hps, ih, hrev, hc, take_until_append_sep]
    · cases hps : pySplit sep cs with
      | nil => exact absurd hps (pySplit_ne_nil sep cs)
      | cons u us =>
        rw [show pySplit sep (c :: cs) = (c :: u) :: us by
          unfold pySplit; rw [if_neg hc, hps]]
        cases us with
        | nil =>
          obtain ⟨hu, hnm⟩ := pySplit_eq_singleton sep cs u hps
          have hns : sep ∉ cs.reverse := by
            intro m
            exact hnm sep (List.mem_reverse.mp m) rfl
          rw [show last_elem [c :: u] = c :: u from rfl, hrev,
            take_until_append_of_not_mem sep cs.reverse [c] hns,
            show take_until sep [c] = [c] by simp [take_until, hc]]
          simp [hu]
        | cons v vs =>
          have hlen : 2 ≤ (pySplit sep cs).length := by
            rw [hps]; simp only [List.length_cons]; omega
          have hsep : sep ∈ cs.reverse := List.mem_reverse.mpr
            (pySplit_mem_of_two_le sep cs hlen)
          rw [show last_elem ((c :: u) :: v :: vs) = last_elem (v :: vs) from rfl,
            show last_elem (v :: vs) = last_elem (u :: v :: vs) from rfl,
            ← hps, ih, hrev, take_until_append_of_mem sep cs.reverse [c] hsep]

/-- C9: the derived filename is a pure function of the url — its last path
segment (the maximal suffix free of `'/'`) with any query string stripped
(the part before the first `'?'`), suffixed with `'.pdf'` — and in particular
the url `/docs/abc?x=1` yields `abc.pdf`. -/
theorem C9_filename_derivation :
    (∀ url : String, derive_filename url = spec_filename url)
    ∧ derive_filename "/docs/abc?x=1" = "abc.pdf" := by
  constructor
  · intro url
    unfold derive_filename spec_filename strip_query last_path_segment
    rw [last_elem_pySplit, head_elem_pySplit]
    rfl
  · decide

/-! Download fan-out: properties of the per-destination copy loop. -/

theorem copyLoop_preserves (content : String) (cf : String → Bool)
    (ds : List String) (fs : List (String × String)) (p b : String)
    (h : fsLookup fs p = some b) :
    fsLookup (copyLoop content cf ds fs).1 p = some b := by
  induction ds generalizing fs with
  | nil => simpa [copyLoop] using h
  | cons d ds ih =>
    unfold copyLoop
    by_cases hex : (fsLookup fs d).isSome
    · rw [if_pos hex]
      exact ih fs h
    · rw [if_neg hex]
      by_cases hcf : cf d
      · rw [if_pos hcf]
        simpa using h
      · rw [if_neg hcf]
        apply ih
        unfold fsLookup
        by_cases hdp : d = p
        · subst hdp
          rw [h] at hex
          simp at hex
        · rw [if_neg hdp]
          exact h

theorem copyLoop_written (content : String) (cf : String → Bool)
    (ds : List String) (fs : List (String × String)) (p b : String)
    (h : fsLookup (copyLoop content cf ds fs).1 p = some b) :
    fsLookup fs p = some b ∨ b = content := by
  induction ds generalizing fs with
  | nil => exact Or.inl (by simpa [copyLoop] using h)
  | cons d ds ih =>
    unfold copyLoop at h
    by_cases hex : (fsLookup fs d).isSome
    · rw [if_pos hex] at h
      exact ih fs h
    · rw [if_neg hex] at h
      by_cases hcf : cf d
      · rw [if_pos hcf] at h
        exact Or.inl (by simpa using h)
      · rw [if_neg hcf] at h
        rcases ih ((d, content) :: fs) h with h' | h'
        · unfold fsLookup at h'
          by_cases hdp : d = p
          · rw [if_pos hdp] at h'
            exact Or.inr (Option.some.inj h').symm
          · rw [if_neg hdp] at h'
            exact Or.inl h'
        · exact Or.inr h'

theorem copyLoop_complete (content : String) (cf : String → Bool)
    (ds : List String) (fs : List (String × String))
    (h : ∀ d ∈ ds, cf d = false) :
    (copyLoop content cf ds fs).2 = none := by
  induction ds generalizing fs with
  | nil => rfl
  | cons d ds ih =>
    unfold copyLoop
    by_cases hex : (fsLookup fs d).isSome
    · rw [if_pos hex]
      exact ih fs fun g hg => h g (List.mem_cons_of_mem d hg)
    · rw [if_neg hex, if_neg (by simp [h d (List.mem_cons_self d ds)])]
      exact ih _ fun g hg => h g (List.mem_cons_of_mem d hg)

theorem copyLoop_mem (content : String) (cf : String → Bool)
    (ds : List String) (p : String) :
    ∀ fs : List (String × String), p ∈ ds → (∀ d ∈ ds, cf d = false) →
    fsLookup (copyLoop content cf ds fs).1 p
      = some ((fsLookup fs p).getD content) := by
  induction ds with
  | nil => intro fs hmem _; cases hmem
  | cons d ds ih =>
    intro fs hmem h
    unfold copyLoop
    by_cases hex : (fsLookup fs d).isSome
    · rw [if_pos hex]
      rcases List.mem_cons.mp hmem with rfl | hp'
      · obtain ⟨b, hb⟩ := Option.isSome_iff_exists.mp hex
        rw [hb]
        simpa using copyLoop_preserves content cf ds fs p b hb
      · exact ih fs hp' fun g hg => h g (List.mem_cons_of_mem d hg)
    · rw [if_neg hex, if_neg (by simp [h d (List.mem_cons_self d ds)])]
      have hnone : fsLookup fs d = none := by
        cases hfd : fsLookup fs d
        · rfl
        · rw [hfd] at hex; simp at hex
      rcases List.mem_cons.mp hmem with rfl | hp'
      · rw [hnone]
        have hlk : fsLookup ((p, content) :: fs) p = some content := by
          unfold fsLookup; rw [if_pos rfl]
        simpa using copyLoop_preserves content cf ds _ p content hlk
      · rw [ih ((d, content) :: fs) hp' fun g hg => h g (List.mem_cons_of_mem d hg)]
        by_cases hdp : d = p
        · subst hdp
          rw [hnone]
          have hl2 : fsLookup ((d, content) :: fs) d = some content := by
            unfold fsLookup; rw [if_pos rfl]
          rw [hl2]
          rfl
        · have hl3 : fsLookup ((d, content) :: fs) p = fsLookup fs p := by
            simp only [fsLookup, if_neg hdp]
          rw [hl3]

theorem download_document_ok (content : String) (cf : String → Bool)
    (ds : List String) (fs : List (String × String))
    (h : (copyLoop content cf ds fs).2 = none) :
    download_document 200 content cf ds fs
      = ⟨(copyLoop content cf ds fs).1, [], DownloadResult.ok⟩ := by
  unfold download_document
  rw [if_neg (by simp)]
  rcases hcl : copyLoop content cf ds fs with ⟨fs2, r2⟩
  rw [hcl] at h
  have h2 : r2 = none := h
  subst h2
  rfl

theorem download_document_fail (content : String) (cf : String → Bool)
    (ds : List String) (fs : List (String × String)) (d : String)
    (h : (copyLoop content cf ds fs).2 = some d) :
    download_document 200 content cf ds fs
      = ⟨(copyLoop content cf ds fs).1, [tmp_name], DownloadResult.copyError d⟩ := by
  unfold download_document
  rw [if_neg (by simp)]
  rcases hcl : copyLoop content cf ds fs with ⟨fs2, r2⟩
  rw [hcl] at h
  have h2 : r2 = some d := h
  subst h2
  rfl

theorem download_document_not200 (status : Nat) (content : String)
    (cf : String → Bool) (ds : List String) (fs : List (String × String))
    (h : status ≠ 200) :
    download_document status content cf ds fs
      = ⟨fs, [], DownloadResult.downloadFailed⟩ := by
  unfold download_document
  rw [if_pos h]

theorem download_document_files (content : String) (cf : String → Bool)
    (ds : List String) (fs : List (String × String)) :
    (download_document 200 content cf ds fs).files = (copyLoop content cf ds fs).1 := by
  unfold download_document
  rw [if_neg (by simp)]
  rcases hcl : copyLoop content cf ds fs with ⟨fs2, r2⟩
  cases r2 <;> rfl

/-- C3 counterexample: with the first destination unwritable and a second
destination still to come, `download_document` aborts with a copy error and
the second destination receives nothing — one destination's copy failure does
abort the remaining destinations, contrary to the claim. -/
theorem C3_counterexample :
    (download_document 200 "DATA" exCopyFailsBad
      ["/dst/bad.pdf", "/dst/ok.pdf"] []).result
       = DownloadResult.copyError "/dst/bad.pdf"
    ∧ fsLookup (download_document 200 "DATA" exCopyFailsBad
      ["/dst/bad.pdf", "/dst/ok.pdf"] []).files "/dst/ok.pdf" = none := by
  decide

/-- C3 (amended): the per-destination recovery applies only to the
already-exists condition — when no copy operation fails, a destination that
already exists is reported and skipped without aborting the remaining
destinations, the run completes, every pre-existing file keeps its bytes and
every listed destination ends up populated; an actual copy failure, by
contrast, propagates (see the counterexample). -/
theorem C3_partial_success_amended (content : String) (cf : String → Bool)
    (ds : List String) (fs : List (String × String))
    (h : ∀ d ∈ ds, cf d = false) :
    (download_document 200 content cf ds fs).result = DownloadResult.ok
    ∧ (∀ p b, fsLookup fs p = some b →
        fsLookup (download_document 200 content cf ds fs).files p = some b)
    ∧ (∀ d ∈ ds, fsLookup (download_document 200 content cf ds fs).files d
        = some ((fsLookup fs d).getD content)) := by
  rw [download_document_ok content cf ds fs (copyLoop_complete content cf ds fs h)]
  exact ⟨rfl,
    fun p b hb => copyLoop_preserves content cf ds fs p b hb,
    fun d hd => copyLoop_mem content cf ds d fs hd h⟩

/-- C3 witness: an existing destination is skipped (bytes kept), the run
completes, and the following fresh destination is still written. -/
theorem C3_partial_success_amended_witness :
    (download_document 200 "DATA" noCopyFails
      ["/dst/exists.pdf", "/dst/new.pdf"] [("/dst/exists.pdf", "OLD")]).result
        = DownloadResult.ok
    ∧ fsLookup (download_document 200 "DATA" noCopyFails
        ["/dst/exists.pdf", "/dst/new.pdf"]
        [("/dst/exists.pdf", "OLD")]).files "/dst/exists.pdf" = some "OLD"
    ∧ fsLookup (download_document 200 "DATA" noCopyFails
        ["/dst/exists.pdf", "/dst/new.pdf"]
        [("/dst/exists.pdf", "OLD")]).files "/dst/new.pdf" = some "DATA" := by
  have h := C3_partial_success_amended "DATA" noCopyFails
    ["/dst/exists.pdf", "/dst/new.pdf"] [("/dst/exists.pdf", "OLD")]
    (by decide)
  exact ⟨h.1, h.2.1 "/dst/exists.pdf" "OLD" (by decide),
    h.2.2 "/dst/new.pdf" (by decide)⟩

/-- C4 counterexample: when the copy to a destination fails, the temporary
file is still on disk when `download_document` exits — it is not deleted on
this error path, contrary to the claim. -/
theorem C4_counterexample :
    (download_document 200 "DATA" exCopyFailsBad ["/dst/bad.pdf"] []).result
      = DownloadResult.copyError "/dst/bad.pdf"
    ∧ (download_document 200 "DATA" exCopyFailsBad ["/dst/bad.pdf"] []).tempFiles
      = [tmp_name] := by
  decide

/-- C4 (amended): the stream is copied to exactly one temporary file, which
is deleted before returning when the destination loop completes (and is never
created when the HTTP status is not 200); but on a failure while copying to a
destination the temporary file is left behind, not deleted. -/
theorem C4_tempfile_amended (status : Nat) (content : String)
    (cf : String → Bool) (ds : List String) (fs : List (String × String)) :
    ((download_document status content cf ds fs).result = DownloadResult.ok →
      (download_document status content cf ds fs).tempFiles = [])
    ∧ ((download_document status content cf ds fs).result
        = DownloadResult.downloadFailed →
      (download_document status content cf ds fs).tempFiles = [])
    ∧ (∀ d, (download_document status content cf ds fs).result
        = DownloadResult.copyError d →
      (download_document status content cf ds fs).tempFiles = [tmp_name]) := by
  by_cases hs : status = 200
  · subst hs
    cases hcl : (copyLoop content cf ds fs).2 with
    | none =>
      rw [download_document_ok content cf ds fs hcl]
      exact ⟨fun _ => rfl, fun h => absurd h (by simp),
        fun d h => absurd h (by simp)⟩
    | some x =>
      rw [download_document_fail content cf ds fs x hcl]
      exact ⟨fun h => absurd h (by simp), fun h => absurd h (by simp),
        fun d _ => rfl⟩
  · rw [download_document_not200 status content cf ds fs hs]
    exact ⟨fun h => absurd h (by simp), fun _ => rfl,
      fun d h => absurd h (by simp)⟩

/-- C4 witness: the temporary file is gone after a completed run and still
present after a run whose destination copy failed. -/
theorem C4_tempfile_amended_witness :
    (download_document 200 "DATA" noCopyFails ["/dst/a.pdf"] []).tempFiles = []
    ∧ (download_document 200 "DATA" exCopyFailsBad
        ["/dst/bad.pdf"] []).tempFiles = [tmp_name] :=
  ⟨(C4_tempfile_amended 200 "DATA" noCopyFails ["/dst/a.pdf"] []).1 (by decide),
   (C4_tempfile_amended 200 "DATA" exCopyFailsBad ["/dst/bad.pdf"] []).2.2
     "/dst/bad.pdf" (by decide)⟩

/-- C7: re-running `download_document` never changes a file that existed
before a run (skip-on-exists), so two successive runs keep all pre-existing
bytes intact; and a destination path absent before either run receives
exactly the fetched content — identical bytes — in both runs. -/
theorem C7_download_idempotent (content : String) (cf : String → Bool)
    (ds : List String) (fs fsA fsB : List (String × String)) (p : String) :
    (∀ b, fsLookup fs p = some b →
      fsLookup (download_document 200 content cf ds fs).files p = some b
      ∧ fsLookup (download_document 200 content cf ds
          (download_document 200 content cf ds fs).files).files p = some b)
    ∧ (fsLookup fsA p = none → fsLookup fsB p = none → p ∈ ds →
        (∀ d ∈ ds, cf d = false) →
      fsLookup (download_document 200 content cf ds fsA).files p = some content
      ∧ fsLookup (download_document 200 content cf ds fsB).files p
          = some content) := by
  constructor
  · intro b hb
    have h1 : fsLookup (download_document 200 content cf ds fs).files p = some b := by
      rw [download_document_files]
      exact copyLoop_preserves content cf ds fs p b hb
    refine ⟨h1, ?_⟩
    rw [download_document_files]
    exact copyLoop_preserves content cf ds _ p b h1
  · intro hA hB hp hcf
    constructor
    · rw [download_document_files, copyLoop_mem content cf ds p fsA hp hcf, hA]
      rfl
    · rw [download_document_files, copyLoop_mem content cf ds p fsB hp hcf, hB]
      rfl

/-- C7 witness: a pre-existing file keeps its bytes across two runs, and a
destination absent from two different starting states receives the same
fetched bytes in both runs. -/
theorem C7_download_idempotent_witness :
    (fsLookup (download_document 200 "DATA" noCopyFails
        ["/dst/x.pdf", "/dst/y.pdf"] [("/dst/x.pdf", "OLD")]).files "/dst/x.pdf"
      = some "OLD"
    ∧ fsLookup (download_document 200 "DATA" noCopyFails
        ["/dst/x.pdf", "/dst/y.pdf"]
        (download_document 200 "DATA" noCopyFails ["/dst/x.pdf", "/dst/y.pdf"]
          [("/dst/x.pdf", "OLD")]).files).files "/dst/x.pdf" = some "OLD")
    ∧ (fsLookup (download_document 200 "DATA" noCopyFails
        ["/dst/x.pdf", "/dst/y.pdf"] []).files "/dst/y.pdf" = some "DATA"
    ∧ fsLookup (download_document 200 "DATA" noCopyFails
        ["/dst/x.pdf", "/dst/y.pdf"] [("/dst/z.pdf", "Q")]).files "/dst/y.pdf"
      = some "DATA") :=
  ⟨(C7_download_idempotent "DATA" noCopyFails ["/dst/x.pdf", "/dst/y.pdf"]
      [("/dst/x.pdf", "OLD")] [] [] "/dst/x.pdf").1 "OLD" (by decide),
   (C7_download_idempotent "DATA" noCopyFails ["/dst/x.pdf", "/dst/y.pdf"]
      [] [] [("/dst/z.pdf", "Q")] "/dst/y.pdf").2 (by decide) (by decide)
      (by decide) (by decide)⟩

/-! Export flow: unfolding equations for the per-account loop. -/

theorem exportLoop_skip (form : Form) (env : ExportEnv) (sds eds dst o name : String)
    (rest : List (String × String)) (h : pyIn "PayPal" name = true) :
    exportLoop form env sds eds dst ((o, name) :: rest)
      = ⟨Event.sleep 5 :: (exportLoop form env sds eds dst rest).trace,
         (exportLoop form env sds eds dst rest).files,
         (exportLoop form env sds eds dst rest).result⟩ := by
  simp only [exportLoop, h, if_true]

theorem exportLoop_hit (form : Form) (env : ExportEnv) (sds eds dst o name : String)
    (rest : List (String × String)) (hpp : pyIn "PayPal" name = false)
    (hl : env.csvLink o = none) :
    exportLoop form env sds eds dst ((o, name) :: rest)
      = ⟨[Event.httpPost (base_url ++ form.action)], [],
          some (ExportError.exportLinkMissing o)⟩ := by
  simp only [exportLoop, hpp, Bool.false_eq_true, if_false, hl]

theorem exportLoop_write (form : Form) (env : ExportEnv) (sds eds dst o name u : String)
    (rest : List (String × String)) (hpp : pyIn "PayPal" name = false)
    (hl : env.csvLink o = some u) :
    exportLoop form env sds eds dst ((o, name) :: rest)
      = ⟨Event.httpPost (base_url ++ form.action)
          :: Event.httpGet (base_url ++ u)
          :: Event.fileWrite (export_file_entry env sds eds dst (o, name)).1
               (export_file_entry env sds eds dst (o, name)).2
          :: Event.sleep 5 :: (exportLoop form env sds eds dst rest).trace,
         export_file_entry env sds eds dst (o, name)
           :: (exportLoop form env sds eds dst rest).files,
         (exportLoop form env sds eds dst rest).result⟩ := by
  simp only [exportLoop, hpp, Bool.false_eq_true, if_false, hl]

theorem exportLoop_all_good (form : Form) (env : ExportEnv) (sds eds dst : String) :
    ∀ accounts : List (String × String),
    (∀ p ∈ accounts, pyIn "PayPal" p.2 = false → (env.csvLink p.1).isSome = true) →
    (exportLoop form env sds eds dst accounts).result = none
    ∧ (exportLoop form env sds eds dst accounts).files
        = (accounts.filter fun p => !(pyIn "PayPal" p.2)).map
            (export_file_entry env sds eds dst)
    ∧ countSleeps (exportLoop form env sds eds dst accounts).trace
        = accounts.length := by
  intro accounts
  induction accounts with
  | nil => intro _; exact ⟨rfl, rfl, rfl⟩
  | cons a rest ih =>
    intro h
    obtain ⟨o, name⟩ := a
    have hrest := ih fun p hp => h p (List.mem_cons_of_mem _ hp)
    by_cases hpp : pyIn "PayPal" name = true
    · rw [exportLoop_skip form env sds eds dst o name rest hpp]
      refine ⟨hrest.1, ?_, ?_⟩
      · simp only [List.filter_cons, hpp]
        simpa using hrest.2.1
      · simp only [countSleeps, hrest.2.2, List.length_cons]
    · have hpp' : pyIn "PayPal" name = false := by
        cases hbb : pyIn "PayPal" name
        · rfl
        · exact absurd hbb hpp
      have hl := h (o, name) (List.mem_cons_self _ _) hpp'
      obtain ⟨u, hu⟩ := Option.isSome_iff_exists.mp hl
      rw [exportLoop_write form env sds eds dst o name u rest hpp' hu]
      refine ⟨hrest.1, ?_, ?_⟩
      · simp only [List.filter_cons, hpp']
        simp only [Bool.not_false, if_true, List.map_cons]
        rw [hrest.2.1]
      · simp only [countSleeps, hrest.2.2, List.length_cons]

theorem exportLoop_fail_at (form : Form) (env : ExportEnv) (sds eds dst : String)
    (o name : String) (post : List (String × String)) :
    ∀ pre : List (String × String),
    (∀ p ∈ pre, pyIn "PayPal" p.2 = false → (env.csvLink p.1).isSome = true) →
    pyIn "PayPal" name = false → env.csvLink o = none →
    (exportLoop form env sds eds dst (pre ++ (o, name) :: post)).result
      = some (ExportError.exportLinkMissing o)
    ∧ (exportLoop form env sds eds dst (pre ++ (o, name) :: post)).files
      = (pre.filter fun p => !(pyIn "PayPal" p.2)).map
          (export_file_entry env sds eds dst) := by
  intro pre
  induction pre with
  | nil =>
    intro _ hname hlink
    rw [List.nil_append, exportLoop_hit form env sds eds dst o name post hname hlink]
    exact ⟨rfl, rfl⟩
  | cons a pre ih =>
    intro hpre hname hlink
    obtain ⟨k, n⟩ := a
    have hrest := ih (fun p hp => hpre p (List.mem_cons_of_mem _ hp)) hname hlink
    rw [List.cons_append]
    by_cases hpp : pyIn "PayPal" n = true
    · rw [exportLoop_skip form env sds eds dst k n (pre ++ (o, name) :: post) hpp]
      refine ⟨hrest.1, ?_⟩
      simp only [List.filter_cons, hpp]
      simpa using hrest.2
    · have hpp' : pyIn "PayPal" n = false := by
        cases hbb : pyIn "PayPal" n
        · rfl
        · exact absurd hbb hpp
      have hl := hpre (k, n) (List.mem_cons_self _ _) hpp'
      obtain ⟨u, hu⟩ := Option.isSome_iff_exists.mp hl
      rw [exportLoop_write form env sds eds dst k n u (pre ++ (o, name) :: post) hpp' hu]
      refine ⟨hrest.1, ?_⟩
      simp only [List.filter_cons, hpp']
      simp only [Bool.not_false, if_true, List.map_cons]
      rw [hrest.2]

/-- C1 counterexample: on a directory of three accounts of which exactly one
is a PayPal account, the run writes two export files (one per non-excluded
account, as the claim says) but pauses three times — once after each account
including the skipped one, because `time.sleep(5)` sits outside the exclusion
branch.  The claim's "the rate-limit pause is not applied for that skipped
account" is false. -/
theorem C1_counterexample :
    (exAccounts.filter fun p => pyIn "PayPal" p.2).length = 1
    ∧ (get_all_banking_account_transactions "/um" exAccounts exEnv exStart
        exEnd "./").files.length = 2
    ∧ countSleeps (get_all_banking_account_transactions "/um" exAccounts exEnv
        exStart exEnd "./").trace = 3 := by
  decide

/-- C1 (amended): every account whose display name contains `'PayPal'` is
skipped — the files written are exactly one per non-excluded account, in
directory order, and none for excluded accounts — but the rate-limit pause is
applied after every account, the skipped ones included (one pause per
directory entry). -/
theorem C1_export_exclusion_amended (umsatz_url : String)
    (accounts : List (String × String)) (env : ExportEnv)
    (s e : Date) (dst : String) (form : Form)
    (hform : findForm env.selectionForms "slAllAccounts" = some form)
    (hlinks : ∀ p ∈ accounts, pyIn "PayPal" p.2 = false →
      (env.csvLink p.1).isSome = true) :
    (get_all_banking_account_transactions umsatz_url accounts env s e dst).result
      = none
    ∧ (get_all_banking_account_transactions umsatz_url accounts env s e dst).files
        = (accounts.filter fun p => !(pyIn "PayPal" p.2)).map
            (export_file_entry env (formatDate s) (formatDate e) dst)
    ∧ countSleeps (get_all_banking_account_transactions umsatz_url accounts
        env s e dst).trace = accounts.length := by
  have hall := exportLoop_all_good form env (formatDate s) (formatDate e) dst
    accounts hlinks
  unfold get_all_banking_account_transactions
  rw [hform]
  exact ⟨hall.1, hall.2.1, hall.2.2⟩

/-- C1 witness: the amended statement on the three-account fixture. -/
theorem C1_export_exclusion_amended_witness :
    (get_all_banking_account_transactions "/um" exAccounts exEnv exStart exEnd
      "./").result = none
    ∧ (get_all_banking_account_transactions "/um" exAccounts exEnv exStart
        exEnd "./").files
        = (exAccounts.filter fun p => !(pyIn "PayPal" p.2)).map
            (export_file_entry exEnv (formatDate exStart) (formatDate exEnd) "./")
    ∧ countSleeps (get_all_banking_account_transactions "/um" exAccounts exEnv
        exStart exEnd "./").trace = exAccounts.length :=
  C1_export_exclusion_amended "/um" exAccounts exEnv exStart exEnd "./"
    ⟨"/banking/select", ["slAllAccounts", "searchPeriodRadio"]⟩
    (by decide) (by decide)

/-- C2 counterexample: with a start date strictly after the end date the run
still issues its initial HTTP request and still writes an export file — there
is no date-range validation and no failure before network activity, contrary
to the claim. -/
theorem C2_counterexample :
    dateLt exEndRev exStartRev = true
    ∧ (get_all_banking_account_transactions "/um" [("1", "Girokonto")] exEnv
        exStartRev exEndRev "./").trace.head?
        = some (Event.httpGet (base_url ++ "/um"))
    ∧ (get_all_banking_account_transactions "/um" [("1", "Girokonto")] exEnv
        exStartRev exEndRev "./").files ≠ [] := by
  decide

/-- C2 (amended): the export performs no date-range validation at all — even
when the start date is strictly after the end date, its very first action is
the HTTP request for the transactions page, and the flow then proceeds
normally with the given dates. -/
theorem C2_no_date_validation_amended (umsatz_url : String)
    (accounts : List (String × String)) (env : ExportEnv)
    (s e : Date) (dst : String) (_h : dateLt e s = true) :
    (get_all_banking_account_transactions umsatz_url accounts env s e dst).trace.head?
      = some (Event.httpGet (base_url ++ umsatz_url)) := by
  unfold get_all_banking_account_transactions
  cases findForm env.selectionForms "slAllAccounts" <;> rfl

/-- C2 witness: the amended statement at a concrete reversed date range. -/
theorem C2_no_date_validation_amended_witness :
    (get_all_banking_account_transactions "/um" exAccounts exEnv exStartRev
      exEndRev "./").trace.head? = some (Event.httpGet (base_url ++ "/um")) :=
  C2_no_date_validation_amended "/um" exAccounts exEnv exStartRev exEndRev "./"
    (by decide)

/-- C10: the export run is not atomic across accounts — when the export for
one account fails because the `csvExport` link is missing from its response,
the run aborts with that error, and the files written for the non-excluded
accounts processed before it are exactly the ones on disk; nothing is rolled
back or cleaned up. -/
theorem C10_no_rollback (umsatz_url : String) (env : ExportEnv) (s e : Date)
    (dst : String) (pre post : List (String × String)) (o name : String)
    (form : Form)
    (hform : findForm env.selectionForms "slAllAccounts" = some form)
    (hpre : ∀ p ∈ pre, pyIn "PayPal" p.2 = false →
      (env.csvLink p.1).isSome = true)
    (hname : pyIn "PayPal" name = false)
    (hlink : env.csvLink o = none) :
    (get_all_banking_account_transactions umsatz_url (pre ++ (o, name) :: post)
      env s e dst).result = some (ExportError.exportLinkMissing o)
    ∧ (get_all_banking_account_transactions umsatz_url (pre ++ (o, name) :: post)
        env s e dst).files
      = (pre.filter fun p => !(pyIn "PayPal" p.2)).map
          (export_file_entry env (formatDate s) (formatDate e) dst) := by
  have hfail := exportLoop_fail_at form env (formatDate s) (formatDate e) dst
    o name post pre hpre hname hlink
  unfold get_all_banking_account_transactions
  rw [hform]
  exact ⟨hfail.1, hfail.2⟩

/-- C10 witness: with the third account's response lacking the export link,
the run aborts there and the first account's file — written earlier — is
exactly what remains on disk. -/
theorem C10_no_rollback_witness :
    (get_all_banking_account_transactions "/um" exAccounts exEnvFail exStart
      exEnd "./").result = some (ExportError.exportLinkMissing "3")
    ∧ (get_all_banking_account_transactions "/um" exAccounts exEnvFail exStart
        exEnd "./").files
      = ([("1", "Girokonto"), ("2", "PayPal Konto")].filter
          fun p => !(pyIn "PayPal" p.2)).map
          (export_file_entry exEnvFail (formatDate exStart) (formatDate exEnd) "./") :=
  C10_no_rollback "/um" exEnvFail exStart exEnd "./"
    [("1", "Girokonto"), ("2", "PayPal Konto")] [] "3" "Depot"
    ⟨"/banking/select", ["slAllAccounts", "searchPeriodRadio"]⟩
    (by decide) (by decide) (by decide) (by decide)
